import Mathlib

/-!
# Verification of the pyright tokenizer specification

This development embeds the character classifier of
`server/src/parser/characters.ts` and (modelled from the specification,
because the tokenizer implementation itself is not among the sources,
only its unit tests) the Python tokenizer of the repository, and proves
or refutes the claims about them.

Conventions: code points are `Nat`; JavaScript sparse objects are
association lists where the most recent write is first; machine numbers
that cannot overflow in the modelled ranges are `Nat`.
-/

set_option maxRecDepth 20000

namespace Pyright

/-! ## Character classifier (`characters.ts`)

Direct translations of the exported predicates.  `Char.Space = 0x20`,
`Char.Tab = 9`, `Char.FormFeed = 0xc`, `Char.CarriageReturn = 0xd`,
`Char.LineFeed = 0xa`, `Char._0 = 0x30`, `Char._9 = 0x39`,
`Char.Underscore = 0x5f`. -/

/-- `isWhiteSpace` from characters.ts:
`ch === Char.Space || ch === Char.Tab || ch === Char.FormFeed`. -/
def isWhiteSpace (ch : Nat) : Bool :=
  ch == 0x20 || ch == 0x9 || ch == 0xc

/-- `isLineBreak` from characters.ts:
`ch === Char.CarriageReturn || ch === Char.LineFeed`. -/
def isLineBreak (ch : Nat) : Bool :=
  ch == 0xd || ch == 0xa

/-- `isNumber` from characters.ts:
`ch >= Char._0 && ch <= Char._9 || ch === Char.Underscore`. -/
def isNumber (ch : Nat) : Bool :=
  (decide (0x30 ≤ ch) && decide (ch ≤ 0x39)) || ch == 0x5f

/-- `isDecimal` from characters.ts:
`ch >= Char._0 && ch <= Char._9 || ch === Char.Underscore`. -/
def isDecimal (ch : Nat) : Bool :=
  (decide (0x30 ≤ ch) && decide (ch ≤ 0x39)) || ch == 0x5f

/-- `isHex` from characters.ts. -/
def isHex (ch : Nat) : Bool :=
  isDecimal ch || (decide (0x61 ≤ ch) && decide (ch ≤ 0x66)) ||
    (decide (0x41 ≤ ch) && decide (ch ≤ 0x46)) || ch == 0x5f

/-- `isOctal` from characters.ts. -/
def isOctal (ch : Nat) : Bool :=
  (decide (0x30 ≤ ch) && decide (ch ≤ 0x37)) || ch == 0x5f

/-- `isBinary` from characters.ts. -/
def isBinary (ch : Nat) : Bool :=
  ch == 0x30 || ch == 0x31 || ch == 0x5f

/-! ## Identifier classification tables (`characters.ts`)

characters.ts keeps a 256-entry fast table and a sparse map
`_identifierCharMap` for higher code points, guarded by the mutable flag
`_identifierCharMapInitialized`.  At module load the pair is built with
`_buildIdentifierLookupTable(true)` (fast table only); the guarded full
build runs lazily, but only `isIdentifierStartChar` triggers it. -/

/-- `CharCategory` from characters.ts. -/
inductive CharCategory where
  | notIdentifierChar
  | startIdentifierChar
  | identifierChar
deriving DecidableEq, Repr

/-- A `UnicodeRangeTable`: inclusive `(start, end)` ranges; single code
points of the source tables are `(c, c)`. -/
abbrev RangeTable := List (Nat × Nat)

/-- `_specialStartIdentifierChars` from characters.ts: underscore plus the
Other_ID_Start code points. -/
def specialStartIdentifierChars : RangeTable :=
  [(0x5f, 0x5f), (0x1885, 0x1885), (0x1886, 0x1886), (0x2118, 0x2118),
   (0x212e, 0x212e), (0x309b, 0x309b), (0x309c, 0x309c)]

/-- `_specialIdentifierChars` from characters.ts: the Other_ID_Continue
code points. -/
def specialIdentifierChars : RangeTable :=
  [(0xb7, 0xb7), (0x387, 0x387), (0x1369, 0x1369), (0x136a, 0x136a),
   (0x136b, 0x136b), (0x136c, 0x136c), (0x136d, 0x136d), (0x136e, 0x136e),
   (0x136f, 0x136f), (0x1370, 0x1370), (0x1371, 0x1371), (0x19da, 0x19da)]

/-- Modelled from the spec: `unicode.unicodeLu` (unicode.ts is not among
the sources; §4.1 pins the Unicode category ranges of a pinned Unicode
version).  Only the leading entries, up to and including the first range
starting at or above 256, are embedded: the module-load fast-table-only
build never reads past that entry, and no claim evaluates the full map
beyond the code points of `specialIdentifierChars`. -/
def unicodeLu : RangeTable := [(0x41, 0x5a), (0xc0, 0xd6), (0xd8, 0xde), (0x100, 0x100)]

/-- Modelled from the spec: leading entries of `unicode.unicodeLl`
(see `unicodeLu`). -/
def unicodeLl : RangeTable :=
  [(0x61, 0x7a), (0xb5, 0xb5), (0xdf, 0xf6), (0xf8, 0xff), (0x101, 0x101)]

/-- Modelled from the spec: leading entries of `unicode.unicodeLt`
(see `unicodeLu`). -/
def unicodeLt : RangeTable := [(0x1c5, 0x1c5)]

/-- Modelled from the spec: leading entries of `unicode.unicodeLo`
(see `unicodeLu`). -/
def unicodeLo : RangeTable := [(0xaa, 0xaa), (0xba, 0xba), (0x1bb, 0x1bb)]

/-- Modelled from the spec: leading entries of `unicode.unicodeLm`
(see `unicodeLu`). -/
def unicodeLm : RangeTable := [(0x2b0, 0x2c1)]

/-- Modelled from the spec: leading entries of `unicode.unicodeNl`
(see `unicodeLu`). -/
def unicodeNl : RangeTable := [(0x16ee, 0x16f0)]

/-- Modelled from the spec: leading entries of `unicode.unicodeMn`
(see `unicodeLu`). -/
def unicodeMn : RangeTable := [(0x300, 0x36f)]

/-- Modelled from the spec: leading entries of `unicode.unicodeMc`
(see `unicodeLu`). -/
def unicodeMc : RangeTable := [(0x903, 0x903)]

/-- Modelled from the spec: leading entries of `unicode.unicodeNd`
(see `unicodeLu`). -/
def unicodeNd : RangeTable := [(0x30, 0x39), (0x660, 0x669)]

/-- Modelled from the spec: leading entries of `unicode.unicodePc`
(see `unicodeLu`). -/
def unicodePc : RangeTable := [(0x5f, 0x5f), (0x203f, 0x2040)]

/-- `_startIdentifierCharRanges` from characters.ts. -/
def startIdentifierCharRanges : List RangeTable :=
  [specialStartIdentifierChars, unicodeLu, unicodeLl, unicodeLt, unicodeLo,
   unicodeLm, unicodeNl]

/-- `_identifierCharRanges` from characters.ts. -/
def identifierCharRanges : List RangeTable :=
  [specialIdentifierChars, unicodeMn, unicodeMc, unicodeNd, unicodePc]

/-- The pair of mutable tables: `_identifierCharFastTable` (all 256 slots
are written, so a missing key reads as the `fill` value
`notIdentifierChar`) and the sparse `_identifierCharMap` (a missing key
reads as JavaScript `undefined`, i.e. `none`).  The most recent write is
first. -/
structure IdentTables where
  fast : List (Nat × CharCategory)
  map : List (Nat × CharCategory)
deriving DecidableEq, Repr

/-- One assignment `table[i] = category`, routed to the fast table or the
sparse map by `i < _identifierCharFastTableSize`. -/
def writeCat (t : IdentTables) (i : Nat) (c : CharCategory) : IdentTables :=
  if i < 256 then { t with fast := (i, c) :: t.fast }
  else { t with map := (i, c) :: t.map }

/-- The inner loop `for (let i = rangeStart; i <= rangeEnd; i++)`,
running over `len = rangeEnd + 1 - rangeStart` code points. -/
def fillRange (i len : Nat) (c : CharCategory) (t : IdentTables) : IdentTables :=
  match len with
  | 0 => t
  | n + 1 => fillRange (i + 1) n c (writeCat t i c)

/-- `_buildIdentifierLookupTableFromUnicodeRangeTable`: fill each entry,
and in fast-table-only mode stop after the first entry whose range starts
at or above the fast table size (the source `break` runs after the fill).
-/
def buildFromTable (table : RangeTable) (c : CharCategory) (fastTableOnly : Bool)
    (t : IdentTables) : IdentTables :=
  match table with
  | [] => t
  | (a, b) :: rest =>
    let t1 := fillRange a (b + 1 - a) c t
    if fastTableOnly && decide (256 ≤ a) then t1
    else buildFromTable rest c fastTableOnly t1

/-- `_buildIdentifierLookupTable`: refill the fast table with
`notIdentifierChar` (the sparse map is not cleared), then write the
continue-category ranges and then the start-category ranges. -/
def buildIdentifierLookupTable (fastTableOnly : Bool) (t0 : IdentTables) :
    IdentTables :=
  let t1 : IdentTables := { t0 with fast := [] }
  let t2 := identifierCharRanges.foldl
    (fun t tbl => buildFromTable tbl .identifierChar fastTableOnly t) t1
  startIdentifierCharRanges.foldl
    (fun t tbl => buildFromTable tbl .startIdentifierChar fastTableOnly t) t2

/-- The tables as of module load (`_buildIdentifierLookupTable(true)` at
the bottom of characters.ts), before any lazy initialization. -/
def initialIdentTables : IdentTables := buildIdentifierLookupTable true ⟨[], []⟩

/-- The tables after the lazy `_buildIdentifierLookupTable(false)` that
`isIdentifierStartChar` performs on its first non-ASCII query. -/
def fullIdentTables : IdentTables := buildIdentifierLookupTable false initialIdentTables

/-- Read an association list, most recent write first. -/
def lookupCat (l : List (Nat × CharCategory)) (i : Nat) : Option CharCategory :=
  (l.find? (fun p => p.1 == i)).map (fun p => p.2)

/-- Fast-table read: every slot was filled, so absence means the `fill`
value `notIdentifierChar`. -/
def fastCat (t : IdentTables) (i : Nat) : CharCategory :=
  (lookupCat t.fast i).getD .notIdentifierChar

/-- Sparse-map read; `none` is JavaScript `undefined`, which compares
unequal to every `CharCategory`. -/
def mapCat (t : IdentTables) (i : Nat) : Option CharCategory :=
  lookupCat t.map i

/-- The classifier's mutable module state is the flag
`_identifierCharMapInitialized`; the tables are a function of it. -/
structure ClassifierState where
  mapInitialized : Bool
deriving DecidableEq, Repr

/-- The tables visible at a given state. -/
def tablesOf (s : ClassifierState) : IdentTables :=
  if s.mapInitialized then fullIdentTables else initialIdentTables

/-- `isIdentifierStartChar` from characters.ts: ASCII fast path, otherwise
lazily build the full map, then read it. -/
def isIdentifierStartChar (ch : Nat) (s : ClassifierState) :
    Bool × ClassifierState :=
  if ch < 256 then (fastCat (tablesOf s) ch == .startIdentifierChar, s)
  else
    let s1 : ClassifierState := ⟨true⟩
    (mapCat (tablesOf s1) ch == some .startIdentifierChar, s1)

/-- `isIdentifierChar` from characters.ts: ASCII fast path, otherwise read
the sparse map directly — without the lazy initialization that
`isIdentifierStartChar` performs. -/
def isIdentifierChar (ch : Nat) (s : ClassifierState) :
    Bool × ClassifierState :=
  if ch < 256 then
    (fastCat (tablesOf s) ch == .startIdentifierChar ||
      fastCat (tablesOf s) ch == .identifierChar, s)
  else
    (mapCat (tablesOf s) ch == some .startIdentifierChar ||
      mapCat (tablesOf s) ch == some .identifierChar, s)

/-! ## Tokenizer data model

Modelled from the spec (§3): the tokenizer implementation (tokenizer.ts
and tokenizerTypes.ts) is not among the sources — only its unit tests —
so the token variants and the scanner below follow the specification's
words, with the unit-test expectations (which are sources) as the
authority wherever the spec's prose is loose. -/

/-- NewLine subtypes (§3). -/
inductive NewLineKind where
  | lineFeed
  | carriageReturn
  | carriageReturnLineFeed
  | implied
deriving DecidableEq, Repr

/-- StringToken flag set (§3), one Bool per flag. -/
structure StringFlags where
  singleQuote : Bool := false
  doubleQuote : Bool := false
  triplicate : Bool := false
  raw : Bool := false
  unicode : Bool := false
  bytes : Bool := false
  format : Bool := false
  unterminated : Bool := false
deriving DecidableEq, Repr

/-- Number token payload (§3).  Integer values are exact; float values
keep the scanned spelling, because the spec delegates float conversion to
the host's double parser and no claim concerns float values. -/
inductive NumberValue where
  | intVal (n : Nat)
  | floatVal (text : List Char)
deriving DecidableEq, Repr

/-- The token sum type (§3).  `start`/`length` are code-unit offsets.
Comment attachment is not modelled (no claim concerns comments); operator
tokens keep only their extent. -/
inductive Token where
  | newLine (start length : Nat) (kind : NewLineKind)
  | indent (start length amount : Nat) (isIndentAmbiguous : Bool)
  | dedent (start length amount : Nat) (matchesIndent : Bool)
  | identifier (start length : Nat) (value : List Char)
  | keyword (start length : Nat) (value : List Char)
  | number (start length : Nat) (value : NumberValue) (isInteger : Bool)
  | operator (start length : Nat)
  | stringTok (start length : Nat) (flags : StringFlags)
      (prefixLength quoteMarkLength : Nat) (escapedValue : List Char)
  | invalid (start length : Nat)
  | dot (start : Nat)
  | ellipsisTok (start : Nat)
  | colon (start : Nat)
  | semicolon (start : Nat)
  | comma (start : Nat)
  | arrow (start : Nat)
  | openParenthesis (start : Nat)
  | closeParenthesis (start : Nat)
  | openBracket (start : Nat)
  | closeBracket (start : Nat)
  | openCurlyBrace (start : Nat)
  | closeCurlyBrace (start : Nat)
  | endOfStream (start : Nat)
deriving DecidableEq, Repr

/-- Token kinds, for comparing token streams by type. -/
inductive TokType where
  | newLine
  | indent
  | dedent
  | identifier
  | keyword
  | number
  | operator
  | stringT
  | invalid
  | dot
  | ellipsisT
  | colon
  | semicolon
  | comma
  | arrow
  | openParenthesis
  | closeParenthesis
  | openBracket
  | closeBracket
  | openCurlyBrace
  | closeCurlyBrace
  | endOfStream
deriving DecidableEq, Repr

/-- The kind of a token. -/
def Token.tokType : Token → TokType
  | .newLine .. => .newLine
  | .indent .. => .indent
  | .dedent .. => .dedent
  | .identifier .. => .identifier
  | .keyword .. => .keyword
  | .number .. => .number
  | .operator .. => .operator
  | .stringTok .. => .stringT
  | .invalid .. => .invalid
  | .dot .. => .dot
  | .ellipsisTok .. => .ellipsisT
  | .colon .. => .colon
  | .semicolon .. => .semicolon
  | .comma .. => .comma
  | .arrow .. => .arrow
  | .openParenthesis .. => .openParenthesis
  | .closeParenthesis .. => .closeParenthesis
  | .openBracket .. => .openBracket
  | .closeBracket .. => .closeBracket
  | .openCurlyBrace .. => .openCurlyBrace
  | .closeCurlyBrace .. => .closeCurlyBrace
  | .endOfStream .. => .endOfStream

/-- Is this a NewLine token? -/
def Token.isNewLineTok : Token → Bool
  | .newLine .. => true
  | _ => false

/-- Is this an Indent token? -/
def Token.isIndentTok : Token → Bool
  | .indent .. => true
  | _ => false

/-- Is this a Dedent token? -/
def Token.isDedentTok : Token → Bool
  | .dedent .. => true
  | _ => false

/-- Is this the EndOfStream token? -/
def Token.isEOSTok : Token → Bool
  | .endOfStream .. => true
  | _ => false

/-! ## Scanner character helpers (modelled from the spec, §4.1/§4.3) -/

/-- Modelled from the spec: identifier-start classification as the main
scanner uses it.  On ASCII this agrees with the fast table of
characters.ts (letters and underscore); code points ≥ 256 are
conservatively treated as identifier characters (the Unicode category
data lives in the absent unicode.ts, and every claim input is ASCII). -/
def identStartCh (c : Char) : Bool :=
  let n := c.toNat
  (decide (97 ≤ n) && decide (n ≤ 122)) || (decide (65 ≤ n) && decide (n ≤ 90)) ||
    n == 95 || decide (256 ≤ n)

/-- Modelled from the spec: identifier-continue classification (start
plus decimal digits on ASCII). -/
def identContCh (c : Char) : Bool :=
  identStartCh c || (decide (48 ≤ c.toNat) && decide (c.toNat ≤ 57))

/-- Strict ASCII decimal digit (no underscore). -/
def isDigitCh (c : Char) : Bool :=
  decide (48 ≤ c.toNat) && decide (c.toNat ≤ 57)

/-- Quote characters: apostrophe (39) and quotation mark (34). -/
def isQuoteCh (c : Char) : Bool :=
  c.toNat == 39 || c.toNat == 34

/-- The keyword table (§4.7). -/
def keywordTable : List (List Char) :=
  [['F','a','l','s','e'], ['N','o','n','e'], ['T','r','u','e'],
   ['a','n','d'], ['a','s'], ['a','s','s','e','r','t'],
   ['a','s','y','n','c'], ['a','w','a','i','t'], ['b','r','e','a','k'],
   ['c','l','a','s','s'], ['c','o','n','t','i','n','u','e'],
   ['d','e','f'], ['d','e','l'], ['e','l','i','f'], ['e','l','s','e'],
   ['e','x','c','e','p','t'], ['f','i','n','a','l','l','y'],
   ['f','o','r'], ['f','r','o','m'], ['g','l','o','b','a','l'],
   ['i','f'], ['i','m','p','o','r','t'], ['i','n'], ['i','s'],
   ['l','a','m','b','d','a'], ['n','o','n','l','o','c','a','l'],
   ['n','o','t'], ['o','r'], ['p','a','s','s'], ['r','a','i','s','e'],
   ['r','e','t','u','r','n'], ['t','r','y'], ['w','h','i','l','e'],
   ['w','i','t','h'], ['y','i','e','l','d'],
   ['_','_','d','e','b','u','g','_','_']]

/-! ## String scanning (modelled from the spec, §4.4) -/

/-- Scan the body of a one-quote string after the opening quote.  Returns
`(escapedValue, consumed, terminated)`, where `consumed` counts the body
plus (when present) the closing quote.  A backslash consumes the next
character as a unit (a CRLF after it counts as one unit of two code
units); a bare line break stops the scan without being consumed and
leaves the token unterminated. -/
def scanSingleQuoted (q : Char) : Nat → List Char → List Char × Nat × Bool
  | 0, _ => ([], 0, false)
  | _ + 1, [] => ([], 0, false)
  | fuel + 1, c :: rest =>
    if isLineBreak c.toNat then ([], 0, false)
    else if c == q then ([], 1, true)
    else if c.toNat == 92 then
      match rest with
      | [] => ([c], 1, false)
      | d :: rest2 =>
        if d.toNat == 13 then
          match rest2 with
          | e :: rest3 =>
            if e.toNat == 10 then
              let r := scanSingleQuoted q fuel rest3
              (c :: d :: e :: r.1, r.2.1 + 3, r.2.2)
            else
              let r := scanSingleQuoted q fuel (e :: rest3)
              (c :: d :: r.1, r.2.1 + 2, r.2.2)
          | [] => ([c, d], 2, false)
        else
          let r := scanSingleQuoted q fuel rest2
          (c :: d :: r.1, r.2.1 + 2, r.2.2)
    else
      let r := scanSingleQuoted q fuel rest
      (c :: r.1, r.2.1 + 1, r.2.2)

/-- Scan the body of a triple-quoted string after the three opening
quotes: line breaks are ordinary content and the string closes at the
first unescaped run of three matching quotes. -/
def scanTripleQuoted (q : Char) : Nat → List Char → List Char × Nat × Bool
  | 0, _ => ([], 0, false)
  | _ + 1, [] => ([], 0, false)
  | fuel + 1, c :: rest =>
    if c == q && rest.head? == some q && rest.tail.head? == some q then
      ([], 3, true)
    else if c.toNat == 92 then
      match rest with
      | [] => ([c], 1, false)
      | d :: rest2 =>
        if d.toNat == 13 then
          match rest2 with
          | e :: rest3 =>
            if e.toNat == 10 then
              let r := scanTripleQuoted q fuel rest3
              (c :: d :: e :: r.1, r.2.1 + 3, r.2.2)
            else
              let r := scanTripleQuoted q fuel (e :: rest3)
              (c :: d :: r.1, r.2.1 + 2, r.2.2)
          | [] => ([c, d], 2, false)
        else
          let r := scanTripleQuoted q fuel rest2
          (c :: d :: r.1, r.2.1 + 2, r.2.2)
    else
      let r := scanTripleQuoted q fuel rest
      (c :: r.1, r.2.1 + 1, r.2.2)

/-- String-prefix letters b/B, u/U, r/R, f/F and their flags (§4.4). -/
def prefixFlagsOf (c : Char) : Option StringFlags :=
  let n := c.toNat
  if n == 98 || n == 66 then some { bytes := true }
  else if n == 117 || n == 85 then some { unicode := true }
  else if n == 114 || n == 82 then some { raw := true }
  else if n == 102 || n == 70 then some { format := true }
  else none

/-- Union of two prefix-flag sets. -/
def mergeFlags (a b : StringFlags) : StringFlags :=
  { bytes := a.bytes || b.bytes, unicode := a.unicode || b.unicode,
    raw := a.raw || b.raw, format := a.format || b.format }

/-- Recognized two-letter prefixes (§4.4): Raw combined with one of
b/u/f in either order, and the bf/fb pair. -/
def validPrefixPair (a b : StringFlags) : Bool :=
  (a.raw && (b.bytes || b.unicode || b.format)) ||
  (b.raw && (a.bytes || a.unicode || a.format)) ||
  (a.bytes && b.format) || (a.format && b.bytes)

/-! ## Number scanning (modelled from the spec, §4.6) -/

/-- Digit value for bases up to 16. -/
def digitVal (c : Char) : Nat :=
  let n := c.toNat
  if 48 ≤ n ∧ n ≤ 57 then n - 48
  else if 97 ≤ n ∧ n ≤ 102 then n - 87
  else if 65 ≤ n ∧ n ≤ 70 then n - 55
  else 0

/-- Positional value of a digit string. -/
def parseRadix (base : Nat) (digits : List Char) : Nat :=
  digits.foldl (fun acc c => acc * base + digitVal c) 0

/-- After a `0x`/`0o`/`0b` prefix: read the digit run (the source digit
predicates admit the underscore separator).  An empty run means the
prefix had no digit: emit the length-1 Number with value 0, leaving the
rest to be rescanned (§4.6). -/
def radixScan (pred : Nat → Bool) (rest2 : List Char) (pos base : Nat) :
    Token × Nat :=
  let run := rest2.takeWhile (fun c => pred c.toNat)
  if run.isEmpty then (.number pos 1 (.intVal 0) true, 1)
  else
    let digits := run.filter (fun c => c.toNat != 95)
    (.number pos (run.length + 2) (.intVal (parseRadix base digits)) true,
      run.length + 2)

/-- Decimal integer or float (§4.6): digit run, optional `.` run,
optional exponent; underscores are admitted by the source predicates.
`isInteger` is true iff no dot and no exponent occurred. -/
def scanDecimalFrom (cs : List Char) (pos : Nat) : Token × Nat :=
  let intPart := cs.takeWhile (fun c => isDecimal c.toNat)
  let rest1 := cs.drop intPart.length
  let fracLen :=
    match rest1 with
    | d :: rest2 =>
      if d.toNat == 46 then
        (rest2.takeWhile (fun c => isDecimal c.toNat)).length + 1
      else 0
    | [] => 0
  let rest2 := rest1.drop fracLen
  let expLen :=
    match rest2 with
    | e :: restE =>
      if e.toNat == 101 || e.toNat == 69 then
        let signLen :=
          match restE with
          | s :: _ => if s.toNat == 43 || s.toNat == 45 then 1 else 0
          | [] => 0
        let digits := (restE.drop signLen).takeWhile (fun c => isDecimal c.toNat)
        match digits with
        | d :: _ => if isDigitCh d then 1 + signLen + digits.length else 0
        | [] => 0
      else 0
    | [] => 0
  let total := intPart.length + fracLen + expLen
  if fracLen == 0 && expLen == 0 then
    (.number pos total
      (.intVal (parseRadix 10 (intPart.filter (fun c => c.toNat != 95)))) true,
      total)
  else
    (.number pos total (.floatVal (cs.take total)) false, total)

/-- Dispatch on the radix prefixes `0x/0X`, `0o/0O`, `0b/0B`, falling
back to the decimal/float scanner (§4.6). -/
def scanNumberFrom (cs : List Char) (pos : Nat) : Token × Nat :=
  match cs with
  | c0 :: c1 :: rest2 =>
    if c0.toNat == 48 && (c1.toNat == 120 || c1.toNat == 88) then
      radixScan isHex rest2 pos 16
    else if c0.toNat == 48 && (c1.toNat == 111 || c1.toNat == 79) then
      radixScan isOctal rest2 pos 8
    else if c0.toNat == 48 && (c1.toNat == 98 || c1.toNat == 66) then
      radixScan isBinary rest2 pos 2
    else scanDecimalFrom cs pos
  | _ => scanDecimalFrom cs pos

/-! ## Indentation (modelled from the spec, §4.3, and the IndentDedent
unit test, which is a source and pins the dedent amounts) -/

/-- Leading whitespace of a line: spaces add 1, a tab advances the
running amount to the next multiple of 8.  Returns
`(consumed, amount, sawTab, sawSpace)`. -/
def countIndent : List Char → Nat → Nat × Nat × Bool × Bool
  | [], amt => (0, amt, false, false)
  | c :: rest, amt =>
    if c.toNat == 32 then
      let r := countIndent rest (amt + 1)
      (r.1 + 1, r.2.1, r.2.2.1, true)
    else if c.toNat == 9 then
      let r := countIndent rest (amt + (8 - amt % 8))
      (r.1 + 1, r.2.1, true, r.2.2.2)
    else (0, amt, false, false)

/-- Pop the indent stack while its top exceeds the new amount; record for
each pop the level dedented to (the entry below the popped one, or the
implicit bottom 0).  Returns `(dedent points, remaining stack)`. -/
def dedentLevels : List Nat → Nat → List Nat × List Nat
  | [], _ => ([], [])
  | top :: rest, amt =>
    if amt < top then
      let r := dedentLevels rest amt
      ((rest.headD 0) :: r.1, r.2)
    else ([], top :: rest)

/-- One Dedent token per pop.  Intermediate dedents land exactly on a
previously pushed level and carry it with `matchesIndent = true`; the
final dedent carries the new line's amount, with `matchesIndent` true iff
that amount equals the level dedented to.  (Pinned by the IndentDedent
test: amounts 2 then 1 with flags true then false.) -/
def dedentTokens (points : List Nat) (amt pos : Nat) : List Token :=
  match points with
  | [] => []
  | p :: rest =>
    match rest with
    | [] => [.dedent pos 0 amt (p == amt)]
    | q :: rest2 => .dedent pos 0 p true :: dedentTokens (q :: rest2) amt pos

/-- Compare a content line's indent amount against the stack: push and
emit Indent when greater, pop and emit Dedents when smaller, nothing when
equal (§4.3). -/
def setIndentTokens (amount : Nat) (ambig : Bool) (pos : Nat)
    (indents : List Nat) : List Token × List Nat :=
  let top := indents.headD 0
  if top < amount then ([.indent pos 0 amount ambig], amount :: indents)
  else if amount < top then
    let r := dedentLevels indents amount
    (dedentTokens r.1 amount pos, r.2)
  else ([], indents)

/-! ## Main scanner (modelled from the spec, §4.3) -/

/-- Scanner state: remaining input, current offset, indent stack (pushed
amounts only, newest first — the implicit bottom entry 0 is never
popped), bracket depth, and whether the scanner sits at the start of a
physical line whose indentation has not been consumed yet. -/
structure ScanState where
  rest : List Char
  pos : Nat
  indents : List Nat
  depth : Nat
  atLineStart : Bool
deriving DecidableEq, Repr

/-- Consume `k` code units of ordinary (non-line-start) input. -/
def advance (s : ScanState) (k : Nat) : ScanState :=
  { s with rest := s.rest.drop k, pos := s.pos + k, atLineStart := false }

/-- Emit a NewLine token of the given extent, unless the scanner is
inside brackets (swallowed) or the previously emitted token is already a
NewLine (consecutive newlines collapse, §4.3).  `acc` is the token
accumulator, most recent first. -/
def emitNewLine (s : ScanState) (acc : List Token) (len : Nat)
    (kind : NewLineKind) : List Token × ScanState :=
  let s1 : ScanState :=
    { s with rest := s.rest.drop len, pos := s.pos + len, atLineStart := true }
  if 0 < s.depth then ([], s1)
  else
    match acc with
    | t :: _ => if t.isNewLineTok then ([], s1) else ([.newLine s.pos len kind], s1)
    | [] => ([.newLine s.pos len kind], s1)

/-- Greedy identifier: the leading character plus the identifier-continue
run, classified against the keyword table. -/
def identScan (s : ScanState) (c : Char) (rst : List Char) :
    List Token × ScanState :=
  let value := c :: rst.takeWhile identContCh
  if keywordTable.contains value then
    ([.keyword s.pos value.length value], advance s value.length)
  else
    ([.identifier s.pos value.length value], advance s value.length)

/-- Scan a string whose opening quote is at the head of `s.rest`; the
prefix (`plen` code units, already consumed) began at `startPos`.  One or
three identical quote characters open the string (§4.4). -/
def scanStringAt (s : ScanState) (startPos plen : Nat) (fl : StringFlags) :
    List Token × ScanState :=
  match s.rest with
  | [] => ([.invalid startPos plen], s)
  | q :: rst =>
    let quoteFlags : StringFlags :=
      if q.toNat == 39 then { fl with singleQuote := true }
      else { fl with doubleQuote := true }
    if rst.head? == some q && rst.tail.head? == some q then
      let r := scanTripleQuoted q (s.rest.drop 3).length (s.rest.drop 3)
      let flags := { quoteFlags with triplicate := true, unterminated := !r.2.2 }
      ([.stringTok startPos (plen + 3 + r.2.1) flags plen 3 r.1],
        { s with rest := s.rest.drop (3 + r.2.1), pos := s.pos + 3 + r.2.1,
                 atLineStart := false })
    else
      let r := scanSingleQuoted q rst.length rst
      let flags := { quoteFlags with unterminated := !r.2.2 }
      ([.stringTok startPos (plen + 1 + r.2.1) flags plen 1 r.1],
        { s with rest := s.rest.drop (1 + r.2.1), pos := s.pos + 1 + r.2.1,
                 atLineStart := false })

/-- Maximal-munch operator recognition (§4.3 operator table); `->` is the
Arrow punctuation token; anything unrecognized is an Invalid token of
length 1 (§4.3). -/
def operatorScan (s : ScanState) (c : Char) (rst : List Char) :
    List Token × ScanState :=
  let n := c.toNat
  let n2 := (rst.head?.map Char.toNat).getD 0
  let n3 := (rst.tail.head?.map Char.toNat).getD 0
  if (n == 60 && n2 == 60 && n3 == 61) || (n == 62 && n2 == 62 && n3 == 61) ||
      (n == 47 && n2 == 47 && n3 == 61) || (n == 42 && n2 == 42 && n3 == 61) then
    ([.operator s.pos 3], advance s 3)
  else if n == 45 && n2 == 62 then ([.arrow s.pos], advance s 2)
  else if (n == 60 && n2 == 60) || (n == 62 && n2 == 62) ||
      (n == 60 && n2 == 61) || (n == 62 && n2 == 61) ||
      (n == 61 && n2 == 61) || (n == 33 && n2 == 61) ||
      (n == 42 && n2 == 42) || (n == 47 && n2 == 47) ||
      (n == 47 && n2 == 61) || (n == 42 && n2 == 61) ||
      (n == 43 && n2 == 61) || (n == 45 && n2 == 61) ||
      (n == 37 && n2 == 61) || (n == 38 && n2 == 61) ||
      (n == 124 && n2 == 61) || (n == 94 && n2 == 61) ||
      (n == 64 && n2 == 61) then
    ([.operator s.pos 2], advance s 2)
  else if n == 60 || n == 62 || n == 43 || n == 45 || n == 126 || n == 37 ||
      n == 42 || n == 47 || n == 38 || n == 124 || n == 94 || n == 64 ||
      n == 61 then
    ([.operator s.pos 1], advance s 1)
  else ([.invalid s.pos 1], advance s 1)

/-- At the start of a physical line: consume the leading whitespace and
compute the tab-expanded indent amount.  Blank and comment-only lines
change nothing; inside brackets the measurement is suppressed; otherwise
the amount is compared against the indent stack (§4.3). -/
def handleLineStart (s : ScanState) : List Token × ScanState :=
  let r := countIndent s.rest 0
  let s1 : ScanState :=
    { s with rest := s.rest.drop r.1, pos := s.pos + r.1, atLineStart := false }
  match s1.rest with
  | [] => ([], s1)
  | c :: _ =>
    if isLineBreak c.toNat || c.toNat == 35 then ([], s1)
    else if 0 < s.depth then ([], s1)
    else
      let r2 := setIndentTokens r.2.1 (r.2.2.1 && r.2.2.2) s1.pos s.indents
      (r2.1, { s1 with indents := r2.2 })

/-- CR or CRLF at the head of input (§4.3). -/
def handleCRCh (s : ScanState) (acc : List Token) (rst : List Char) :
    List Token × ScanState :=
  match rst with
  | d :: _ =>
    if d.toNat == 10 then emitNewLine s acc 2 .carriageReturnLineFeed
    else emitNewLine s acc 1 .carriageReturn
  | [] => emitNewLine s acc 1 .carriageReturn

/-- A backslash: a line continuation when a line terminator follows,
otherwise a stray backslash — an Invalid token (§4.3). -/
def handleBackslashCh (s : ScanState) (rst : List Char) :
    List Token × ScanState :=
  match rst with
  | d :: rest2 =>
    if d.toNat == 13 then
      match rest2 with
      | e :: _ => if e.toNat == 10 then ([], advance s 3) else ([], advance s 2)
      | [] => ([], advance s 2)
    else if d.toNat == 10 then ([], advance s 2)
    else ([.invalid s.pos 1], advance s 1)
  | [] => ([.invalid s.pos 1], advance s 1)

/-- A comment: consumed to the line terminator, no token (§4.3). -/
def handleCommentCh (s : ScanState) (rst : List Char) :
    List Token × ScanState :=
  ([], advance s ((rst.takeWhile (fun c2 => !isLineBreak c2.toNat)).length + 1))

/-- An identifier-start character: a string when it is a recognized
prefix of one or two letters followed by a quote, otherwise an
identifier or keyword (§4.3, §4.4). -/
def handlePrefixOrIdent (s : ScanState) (c : Char) (rst : List Char) :
    List Token × ScanState :=
  match prefixFlagsOf c with
  | some f1 =>
    match rst with
    | d :: rest2 =>
      if isQuoteCh d then scanStringAt (advance s 1) s.pos 1 f1
      else
        match prefixFlagsOf d with
        | some f2 =>
          if validPrefixPair f1 f2 && (rest2.head?.map isQuoteCh).getD false then
            scanStringAt (advance s 2) s.pos 2 (mergeFlags f1 f2)
          else identScan s c rst
        | none => identScan s c rst
    | [] => identScan s c rst
  | none => identScan s c rst

/-- A numeric literal starting at the current position (§4.6). -/
def handleNumberCh (s : ScanState) : List Token × ScanState :=
  let r := scanNumberFrom s.rest s.pos
  ([r.1], advance s r.2)

/-- A period: a float when a digit follows, an Ellipsis when three
periods run, otherwise a Dot (§4.3). -/
def handleDotCh (s : ScanState) (rst : List Char) : List Token × ScanState :=
  match rst with
  | d :: rest2 =>
    if isDigitCh d then handleNumberCh s
    else if d.toNat == 46 && ((rest2.head?.map Char.toNat).getD 0 == 46) then
      ([.ellipsisTok s.pos], advance s 3)
    else ([.dot s.pos], advance s 1)
  | [] => ([.dot s.pos], advance s 1)

/-- A colon: the walrus operator when `=` follows, otherwise Colon. -/
def handleColonCh (s : ScanState) (rst : List Char) : List Token × ScanState :=
  if (rst.head?.map Char.toNat).getD 0 == 61 then
    ([.operator s.pos 2], advance s 2)
  else ([.colon s.pos], advance s 1)

/-- An opening bracket: emit and deepen the bracket nesting (§4.3). -/
def openBracketTok (s : ScanState) (tok : Token) : List Token × ScanState :=
  ([tok], { advance s 1 with depth := s.depth + 1 })

/-- A closing bracket: emit and shallow the bracket nesting (never below
zero, §4.3). -/
def closeBracketTok (s : ScanState) (tok : Token) : List Token × ScanState :=
  ([tok], { advance s 1 with depth := s.depth - 1 })

/-- The dispatch alternatives of the main scanner (§4.3). -/
inductive MainCase where
  | crCase
  | lfCase
  | backslashCase
  | whiteCase
  | commentCase
  | quoteCase
  | identCase
  | digitCase
  | dotCase
  | openParenCase
  | closeParenCase
  | openBracketCase
  | closeBracketCase
  | openCurlyCase
  | closeCurlyCase
  | colonCase
  | semicolonCase
  | commaCase
  | operatorCase
deriving DecidableEq, Repr

/-- Classify the leading character of ordinary input (§4.3): line
terminators, backslash, whitespace, comment, string quote, identifier
start (which also covers string prefixes), digit, period, brackets,
punctuation, and otherwise the operator table (whose fallback is the
Invalid token). -/
def mainCaseOf (c : Char) : MainCase :=
  let n := c.toNat
  if n == 13 then .crCase
  else if n == 10 then .lfCase
  else if n == 92 then .backslashCase
  else if isWhiteSpace n then .whiteCase
  else if n == 35 then .commentCase
  else if isQuoteCh c then .quoteCase
  else if identStartCh c then .identCase
  else if isDigitCh c then .digitCase
  else if n == 46 then .dotCase
  else if n == 40 then .openParenCase
  else if n == 41 then .closeParenCase
  else if n == 91 then .openBracketCase
  else if n == 93 then .closeBracketCase
  else if n == 123 then .openCurlyCase
  else if n == 125 then .closeCurlyCase
  else if n == 58 then .colonCase
  else if n == 59 then .semicolonCase
  else if n == 44 then .commaCase
  else .operatorCase

/-- Dispatch on the leading character of ordinary (non-line-start) input
(§4.3). -/
def handleMain (s : ScanState) (acc : List Token) : List Token × ScanState :=
  match s.rest with
  | [] => ([], s)
  | c :: rst =>
    match mainCaseOf c with
    | .crCase => handleCRCh s acc rst
    | .lfCase => emitNewLine s acc 1 .lineFeed
    | .backslashCase => handleBackslashCh s rst
    | .whiteCase => ([], advance s 1)
    | .commentCase => handleCommentCh s rst
    | .quoteCase => scanStringAt s s.pos 0 {}
    | .identCase => handlePrefixOrIdent s c rst
    | .digitCase => handleNumberCh s
    | .dotCase => handleDotCh s rst
    | .openParenCase => openBracketTok s (.openParenthesis s.pos)
    | .closeParenCase => closeBracketTok s (.closeParenthesis s.pos)
    | .openBracketCase => openBracketTok s (.openBracket s.pos)
    | .closeBracketCase => closeBracketTok s (.closeBracket s.pos)
    | .openCurlyCase => openBracketTok s (.openCurlyBrace s.pos)
    | .closeCurlyCase => closeBracketTok s (.closeCurlyBrace s.pos)
    | .colonCase => handleColonCh s rst
    | .semicolonCase => ([.semicolon s.pos], advance s 1)
    | .commaCase => ([.comma s.pos], advance s 1)
    | .operatorCase => operatorScan s c rst

/-- One scanner step: `none` when the input is exhausted. -/
def step (s : ScanState) (acc : List Token) : Option (List Token × ScanState) :=
  match s.rest with
  | [] => none
  | _ :: _ =>
    if s.atLineStart then some (handleLineStart s) else some (handleMain s acc)

/-- The fuel-driven scan loop; `acc` holds the emitted tokens, most
recent first. -/
def scanLoop : Nat → ScanState → List Token → List Token × ScanState
  | 0, s, acc => (acc, s)
  | fuel + 1, s, acc =>
    match step s acc with
    | none => (acc, s)
    | some (ts, s1) => scanLoop fuel s1 (ts.reverse ++ acc)

/-- Physical line spans `(start, length)`, terminators included; there is
always a final line after the last terminator, so the empty input has one
empty line (§3, §4.2). -/
def splitLinesGo : Nat → List Char → Nat → Nat → List (Nat × Nat)
  | 0, _, start, len => [(start, len)]
  | _ + 1, [], start, len => [(start, len)]
  | fuel + 1, c :: rest, start, len =>
    if c.toNat == 13 then
      match rest with
      | d :: rest2 =>
        if d.toNat == 10 then
          (start, len + 2) :: splitLinesGo fuel rest2 (start + len + 2) 0
        else (start, len + 1) :: splitLinesGo fuel (d :: rest2) (start + len + 1) 0
      | [] => [(start, len + 1), (start + len + 1, 0)]
    else if c.toNat == 10 then
      (start, len + 1) :: splitLinesGo fuel rest (start + len + 1) 0
    else splitLinesGo fuel rest start (len + 1)

/-- The line spans of an input. -/
def splitLines (text : List Char) : List (Nat × Nat) :=
  splitLinesGo text.length text 0 0

/-- Tokenizer output: the token stream and the line spans (§3; the
remaining TokenizerOutput fields are untouched by the claims). -/
structure TokenizerOutput where
  tokens : List Token
  lines : List (Nat × Nat)
deriving DecidableEq, Repr

/-- Is the most recently emitted token a NewLine? -/
def headIsNewLine (acc : List Token) : Bool :=
  match acc with
  | t :: _ => t.isNewLineTok
  | [] => false

/-- The initial scanner state of an input. -/
def initScanState (text : List Char) : ScanState :=
  ⟨text, 0, [], 0, true⟩

/-- `tokenize` (§4.3, §7): run the scan loop; at end of input append an
Implied NewLine of length 0 unless the last token is already a NewLine,
then dedent the entire remaining indent stack, then EndOfStream. -/
def tokenize (text : List Char) : TokenizerOutput :=
  let r := scanLoop (2 * text.length + 4) (initScanState text) []
  let acc := r.1
  let sf := r.2
  let acc1 := if headIsNewLine acc then acc
    else Token.newLine sf.pos 0 .implied :: acc
  let eofDedents := dedentTokens (dedentLevels sf.indents 0).1 0 sf.pos
  ⟨acc1.reverse ++ eofDedents ++ [Token.endOfStream sf.pos], splitLines text⟩

/-! ## Stream projections used by the claims -/

/-- The kinds of a token stream. -/
def tokTypes (out : TokenizerOutput) : List TokType :=
  out.tokens.map Token.tokType

/-- `(indentAmount, matchesIndent)` of every Dedent, in stream order. -/
def dedentInfo (out : TokenizerOutput) : List (Nat × Bool) :=
  out.tokens.filterMap fun t =>
    match t with
    | .dedent _ _ a m => some (a, m)
    | _ => none

/-- `indentAmount` of every Indent, in stream order. -/
def indentAmounts (out : TokenizerOutput) : List Nat :=
  out.tokens.filterMap fun t =>
    match t with
    | .indent _ _ a _ => some a
    | _ => none

/-- `(length, value, isInteger)` of every Number, in stream order. -/
def numberInfo (out : TokenizerOutput) : List (Nat × NumberValue × Bool) :=
  out.tokens.filterMap fun t =>
    match t with
    | .number _ len v i => some (len, v, i)
    | _ => none

/-- The value of every Identifier, in stream order. -/
def identValues (out : TokenizerOutput) : List (List Char) :=
  out.tokens.filterMap fun t =>
    match t with
    | .identifier _ _ v => some v
    | _ => none

/-- Every String token, in stream order. -/
def stringToks (out : TokenizerOutput) : List Token :=
  out.tokens.filter fun t =>
    match t with
    | .stringTok .. => true
    | _ => false

/-! ## String unescaper and f-string splitter (modelled from the spec,
§4.5, with the string unit tests — which are sources — as authority) -/

/-- Unescape error kinds (§3). -/
inductive UnescapeErrorKind where
  | invalidEscapeSequence
  | escapeWithinFormatExpression
  | singleCloseBraceWithinFormatLiteral
  | unterminatedFormatExpression
deriving DecidableEq, Repr

/-- One unescape error record (§3). -/
structure UnescapeError where
  offset : Nat
  length : Nat
  errorType : UnescapeErrorKind
deriving DecidableEq, Repr

/-- One f-string segment: a literal run or an embedded expression, with
its offset into the escaped text (§3). -/
structure FormatStringSegment where
  offset : Nat
  length : Nat
  value : List Char
  isExpression : Bool
deriving DecidableEq, Repr

/-- The result of `getUnescapedString` (§3). -/
structure UnescapedString where
  value : List Char
  unescapeErrors : List UnescapeError
  formatStringSegments : List FormatStringSegment
  nonAsciiInBytes : Bool
deriving DecidableEq, Repr

/-- The `[a, b)` slice of the escaped body. -/
def sliceOf (body : List Char) (a b : Nat) : List Char :=
  (body.drop a).take (b - a)

/-- Close the current literal segment `[segStart, i)`, dropping it when
empty; accumulators are most recent first. -/
def flushLit (body : List Char) (segStart i : Nat)
    (segs : List FormatStringSegment) : List FormatStringSegment :=
  if segStart < i then
    ⟨segStart, i - segStart, sliceOf body segStart i, false⟩ :: segs
  else segs

/-- Splitter mode: inside a literal run (with its start offset) or inside
an embedded expression (start offset, bracket depth, active quote). -/
inductive FsMode where
  | lit (segStart : Nat)
  | expr (exprStart depth : Nat) (inStr : Option Char)
deriving DecidableEq, Repr

/-- Finalization of the splitter walk at the end of the body: close the
pending literal segment, or report the still-open expression as
unterminated (at the expression's start offset, as the unit tests pin)
and close its segment.  Accumulators are most recent first and are put in
input order. -/
def fsWalkEnd (body : List Char) (i : Nat) (mode : FsMode)
    (segs : List FormatStringSegment) (errs : List UnescapeError) :
    List FormatStringSegment × List UnescapeError :=
  match mode with
  | .lit segStart => ((flushLit body segStart i segs).reverse, errs.reverse)
  | .expr es _ _ =>
    ((⟨es, i - es, sliceOf body es i, true⟩ :: segs).reverse,
      (⟨es, 1, .unterminatedFormatExpression⟩ :: errs).reverse)

/-- Walk an f-string body (§4.5): `{{`/`}}` are literal braces; a
single `}` in a literal is a SingleCloseBraceWithinFormatLiteral error at
its offset and the literal segment ends just before it; `{` opens an
expression, inside which quotes and `( [ {` depths are tracked, a
backslash is an EscapeWithinFormatExpression error at its offset, and a
`}` at depth zero outside strings closes the expression; an expression
still open at the end of the body is an UnterminatedFormatExpression
(reported, as the unit tests pin, at the expression's start offset).
Segment and error accumulators are most recent first and are put in input
order at the end. -/
def fsWalk (body : List Char) :
    Nat → List Char → Nat → FsMode → List FormatStringSegment →
    List UnescapeError → List FormatStringSegment × List UnescapeError
  | 0, _, i, mode, segs, errs =>
    fsWalkEnd body i mode segs errs
  | _ + 1, [], i, mode, segs, errs =>
    fsWalkEnd body i mode segs errs
  | fuel + 1, c :: rest, i, mode, segs, errs =>
    match mode with
    | .lit segStart =>
      if c.toNat == 123 then
        match rest with
        | d :: rest2 =>
          if d.toNat == 123 then
            fsWalk body fuel rest2 (i + 2) (.lit segStart) segs errs
          else
            fsWalk body fuel (d :: rest2) (i + 1) (.expr (i + 1) 0 none)
              (flushLit body segStart i segs) errs
        | [] =>
          ((⟨i + 1, 0, [], true⟩ :: flushLit body segStart i segs).reverse,
            (⟨i + 1, 1, .unterminatedFormatExpression⟩ :: errs).reverse)
      else if c.toNat == 125 then
        match rest with
        | d :: rest2 =>
          if d.toNat == 125 then
            fsWalk body fuel rest2 (i + 2) (.lit segStart) segs errs
          else
            fsWalk body fuel (d :: rest2) (i + 1) (.lit (i + 1))
              (flushLit body segStart i segs)
              (⟨i, 1, .singleCloseBraceWithinFormatLiteral⟩ :: errs)
        | [] =>
          ((flushLit body segStart i segs).reverse,
            (⟨i, 1, .singleCloseBraceWithinFormatLiteral⟩ :: errs).reverse)
      else fsWalk body fuel rest (i + 1) (.lit segStart) segs errs
    | .expr es depth inStr =>
      match inStr with
      | some q =>
        if c == q then fsWalk body fuel rest (i + 1) (.expr es depth none) segs errs
        else if c.toNat == 92 then
          fsWalk body fuel rest (i + 1) (.expr es depth inStr) segs
            (⟨i, 1, .escapeWithinFormatExpression⟩ :: errs)
        else fsWalk body fuel rest (i + 1) (.expr es depth inStr) segs errs
      | none =>
        if c.toNat == 92 then
          fsWalk body fuel rest (i + 1) (.expr es depth none) segs
            (⟨i, 1, .escapeWithinFormatExpression⟩ :: errs)
        else if c.toNat == 39 || c.toNat == 34 then
          fsWalk body fuel rest (i + 1) (.expr es depth (some c)) segs errs
        else if c.toNat == 40 || c.toNat == 91 || c.toNat == 123 then
          fsWalk body fuel rest (i + 1) (.expr es (depth + 1) none) segs errs
        else if c.toNat == 125 then
          if depth == 0 then
            fsWalk body fuel rest (i + 1) (.lit (i + 1))
              (⟨es, i - es, sliceOf body es i, true⟩ :: segs) errs
          else fsWalk body fuel rest (i + 1) (.expr es (depth - 1) none) segs errs
        else if c.toNat == 41 || c.toNat == 93 then
          fsWalk body fuel rest (i + 1) (.expr es (depth - 1) none) segs errs
        else fsWalk body fuel rest (i + 1) (.expr es depth none) segs errs

/-- Split an f-string body into segments and errors (§4.5). -/
def splitFormatString (body : List Char) :
    List FormatStringSegment × List UnescapeError :=
  fsWalk body body.length body 0 (.lit 0) [] []

/-- Strict hex digit (the escape decoder requires exact digit counts and
does not admit the underscore, §4.5). -/
def isHexDigitCh (c : Char) : Bool :=
  isDigitCh c || (decide (97 ≤ c.toNat) && decide (c.toNat ≤ 102)) ||
    (decide (65 ≤ c.toNat) && decide (c.toNat ≤ 70))

/-- Strict octal digit. -/
def isOctalDigitCh (c : Char) : Bool :=
  decide (48 ≤ c.toNat) && decide (c.toNat ≤ 55)

/-- Decode the escape sequences of a non-raw, non-format body (§4.5).
Unknown or malformed escapes are kept verbatim in the cooked value with
an InvalidEscapeSequence error; `\N{NAME}` resolves through the external
Unicode name table, mocked (as in the unit tests) to `-`. -/
def decodeEscGo : Nat → List Char → Nat → List Char × List UnescapeError
  | 0, _, _ => ([], [])
  | _ + 1, [], _ => ([], [])
  | fuel + 1, c :: rest, i =>
    if c.toNat != 92 then
      let r := decodeEscGo fuel rest (i + 1)
      (c :: r.1, r.2)
    else
      match rest with
      | [] => ([c], [⟨i, 1, .invalidEscapeSequence⟩])
      | d :: rest2 =>
        let n := d.toNat
        let mapped : Option Char :=
          if n == 92 || n == 39 || n == 34 then some d
          else if n == 97 then some (Char.ofNat 7)
          else if n == 98 then some (Char.ofNat 8)
          else if n == 102 then some (Char.ofNat 12)
          else if n == 110 then some (Char.ofNat 10)
          else if n == 114 then some (Char.ofNat 13)
          else if n == 116 then some (Char.ofNat 9)
          else if n == 118 then some (Char.ofNat 11)
          else none
        match mapped with
        | some ch =>
          let r := decodeEscGo fuel rest2 (i + 2)
          (ch :: r.1, r.2)
        | none =>
          if n == 10 then
            let r := decodeEscGo fuel rest2 (i + 2)
            (r.1, r.2)
          else if n == 13 then
            if (rest2.head?.map Char.toNat).getD 0 == 10 then
              let r := decodeEscGo fuel (rest2.drop 1) (i + 3)
              (r.1, r.2)
            else
              let r := decodeEscGo fuel rest2 (i + 2)
              (r.1, r.2)
          else if isOctalDigitCh d then
            let extra := (rest2.take 2).takeWhile isOctalDigitCh
            let r := decodeEscGo fuel (rest2.drop extra.length) (i + 2 + extra.length)
            (Char.ofNat (parseRadix 8 (d :: extra)) :: r.1, r.2)
          else if n == 120 || n == 117 || n == 85 then
            let k : Nat := if n == 120 then 2 else if n == 117 then 4 else 8
            let digits := rest2.take k
            if digits.length == k && digits.all isHexDigitCh then
              let r := decodeEscGo fuel (rest2.drop k) (i + 2 + k)
              (Char.ofNat (parseRadix 16 digits) :: r.1, r.2)
            else
              let r := decodeEscGo fuel rest2 (i + 2)
              (c :: d :: r.1, ⟨i, 2, .invalidEscapeSequence⟩ :: r.2)
          else if n == 78 then
            if (rest2.head?.map Char.toNat).getD 0 == 123 then
              let name := (rest2.drop 1).takeWhile (fun c2 => c2.toNat != 125)
              if (rest2.drop 1).length != name.length && !name.isEmpty &&
                  name.all (fun c2 => c2.toNat != 32) then
                let r := decodeEscGo fuel (rest2.drop (name.length + 2)) (i + 4 + name.length)
                ( '-' :: r.1, r.2)
              else
                let r := decodeEscGo fuel rest2 (i + 2)
                (c :: d :: r.1, ⟨i, 2, .invalidEscapeSequence⟩ :: r.2)
            else
              let r := decodeEscGo fuel rest2 (i + 2)
              (c :: d :: r.1, ⟨i, 2, .invalidEscapeSequence⟩ :: r.2)
          else
            let r := decodeEscGo fuel rest2 (i + 2)
            (c :: d :: r.1, ⟨i, 2, .invalidEscapeSequence⟩ :: r.2)

/-- `getUnescapedString` (§4.5) on a string token's flags and escaped
body.  The spec's raw-string rule is unconditional (§4.5, §8: the cooked
value is the escaped value verbatim and no errors are produced), so the
Raw flag is tested first; format strings run the segment splitter; other
strings decode their escapes.  A bytes literal records whether the cooked
value has any code point ≥ 0x80. -/
def getUnescapedStringOf (flags : StringFlags) (body : List Char) :
    UnescapedString :=
  if flags.raw then
    ⟨body, [], [], flags.bytes && body.any (fun c => decide (0x80 ≤ c.toNat))⟩
  else if flags.format then
    let r := splitFormatString body
    ⟨body, r.2, r.1, flags.bytes && body.any (fun c => decide (0x80 ≤ c.toNat))⟩
  else
    let r := decodeEscGo body.length body 0
    ⟨r.1, r.2, [], flags.bytes && r.1.any (fun c => decide (0x80 ≤ c.toNat))⟩

/-- `getUnescapedString` on a token; non-string tokens yield the empty
result. -/
def getUnescapedString (t : Token) : UnescapedString :=
  match t with
  | .stringTok _ _ flags _ _ body => getUnescapedStringOf flags body
  | _ => ⟨[], [], [], false⟩

/-! ## Concrete inputs of the claims (written as code-point lists) -/

/-- LINE FEED. -/
def lfC : Char := Char.ofNat 10
/-- CARRIAGE RETURN. -/
def crC : Char := Char.ofNat 13
/-- TAB. -/
def tbC : Char := Char.ofNat 9
/-- Backslash. -/
def bsC : Char := Char.ofNat 92
/-- Apostrophe (single quote). -/
def sqC : Char := Char.ofNat 39
/-- Quotation mark (double quote). -/
def dqC : Char := Char.ofNat 34
/-- Closing curly brace. -/
def cbC : Char := Char.ofNat 125

/-- The IndentDedent test input (claims C1 and C5). -/
def c1Input : List Char :=
  ['t','e','s','t',lfC,' ',' ','i','1',lfC,' ',' ','i','2',' ',' ','#',' ',lfC,
   ' ',' ',' ',' ',' ',' ',' ','#',' ',lfC,' ',' ',tbC,'i','3',lfC,tbC,'i','4',
   lfC,' ','i','1']

/-- The IndentDedentParen test input (claims C3 and C4). -/
def c4Input : List Char :=
  ['t','e','s','t',' ','(',lfC,' ',' ','i','1',lfC,' ',' ',' ',' ',' ',' ',' ',
   ')',lfC,' ',' ','f','o','o']

/-- The hex-number test input (claim C6). -/
def c6aInput : List Char :=
  ['1',' ','0','X','2',' ','0','x','F','e','_','A','b',' ','0','x']

/-- The bare binary prefix input (claim C6). -/
def c6bInput : List Char := ['0','b']

/-- The raw-strings test input (claim C7). -/
def c7Input : List Char :=
  ['R',dqC,bsC,dqC,dqC,' ','r',dqC,bsC,crC,lfC,bsC,lfC,bsC,'a',dqC]

/-- The f-string-with-single-right-brace test input (claim C8). -/
def c8Input : List Char := ['f',sqC,'h','e','l','l','o',cbC,sqC]

/-- The flags of a string token. -/
def flagsOf (t : Token) : StringFlags :=
  match t with
  | .stringTok _ _ flags _ _ _ => flags
  | _ => {}

/-- The escaped value of a string token. -/
def escapedValueOf (t : Token) : List Char :=
  match t with
  | .stringTok _ _ _ _ _ body => body
  | _ => []

/-! ## Structural lemmas about the scanner -/

/-- A token that is neither EndOfStream nor Indent nor Dedent. -/
def Token.plain (t : Token) : Bool :=
  !t.isEOSTok && !t.isIndentTok && !t.isDedentTok

/-- Every token built by `dedentTokens` is a Dedent. -/
theorem dedentTokens_isDedent (points : List Nat) (amt pos : Nat) :
    ∀ t ∈ dedentTokens points amt pos, t.isDedentTok = true := by
  induction points with
  | nil => simp [dedentTokens]
  | cons p rest ih =>
    cases rest with
    | nil =>
      intro t ht
      have he : dedentTokens [p] amt pos = [.dedent pos 0 amt (p == amt)] := rfl
      rw [he] at ht
      simp at ht
      simp [ht, Token.isDedentTok]
    | cons q rest2 =>
      intro t ht
      have he : dedentTokens (p :: q :: rest2) amt pos =
          .dedent pos 0 p true :: dedentTokens (q :: rest2) amt pos := rfl
      rw [he] at ht
      rcases List.mem_cons.mp ht with h | h
      · subst h; rfl
      · exact ih t h

/-- Every token built by `setIndentTokens` is an Indent or a Dedent. -/
theorem setIndentTokens_tokens (amount : Nat) (ambig : Bool) (pos : Nat)
    (indents : List Nat) :
    ∀ t ∈ (setIndentTokens amount ambig pos indents).1,
      t.isIndentTok = true ∨ t.isDedentTok = true := by
  intro t ht
  simp only [setIndentTokens] at ht
  split at ht
  · simp at ht
    simp [ht, Token.isIndentTok]
  · split at ht
    · exact Or.inr (dedentTokens_isDedent _ _ _ t ht)
    · simp at ht

/-- Every token emitted at line start is an Indent or a Dedent. -/
theorem handleLineStart_tokens (s : ScanState) :
    ∀ t ∈ (handleLineStart s).1, t.isIndentTok = true ∨ t.isDedentTok = true := by
  intro t ht
  simp only [handleLineStart] at ht
  rcases hdrop : List.drop (countIndent s.rest 0).1 s.rest with _ | ⟨c, tl⟩ <;>
    simp only [hdrop] at ht
  · simp at ht
  · split at ht
    · simp at ht
    · split at ht
      · simp at ht
      · exact setIndentTokens_tokens _ _ _ _ t ht

/-- Inside brackets, line-start processing emits nothing. -/
theorem handleLineStart_bracketed (s : ScanState) (h : 0 < s.depth) :
    (handleLineStart s).1 = [] := by
  simp only [handleLineStart]
  rcases hdrop : List.drop (countIndent s.rest 0).1 s.rest with _ | ⟨c, tl⟩
  · simp [hdrop]
  · simp only [hdrop]
    split <;> simp [h]

/-- Every token emitted by `emitNewLine` is plain (a NewLine). -/
theorem emitNewLine_tokens (s : ScanState) (acc : List Token) (len : Nat)
    (k : NewLineKind) :
    ∀ t ∈ (emitNewLine s acc len k).1, t.plain = true := by
  intro t ht
  simp only [emitNewLine] at ht
  split at ht
  · simp at ht
  · split at ht
    · split at ht
      · simp at ht
      · simp at ht
        simp [ht, Token.plain, Token.isEOSTok, Token.isIndentTok, Token.isDedentTok]
    · simp at ht
      simp [ht, Token.plain, Token.isEOSTok, Token.isIndentTok, Token.isDedentTok]

/-- Every token emitted by `identScan` is plain (Keyword or Identifier). -/
theorem identScan_tokens (s : ScanState) (c : Char) (rst : List Char) :
    ∀ t ∈ (identScan s c rst).1, t.plain = true := by
  intro t ht
  simp only [identScan] at ht
  split at ht <;>
    · simp at ht
      simp [ht, Token.plain, Token.isEOSTok, Token.isIndentTok, Token.isDedentTok]

/-- Every token emitted by `scanStringAt` is plain (String or Invalid). -/
theorem scanStringAt_tokens (s : ScanState) (startPos plen : Nat)
    (fl : StringFlags) :
    ∀ t ∈ (scanStringAt s startPos plen fl).1, t.plain = true := by
  intro t ht
  simp only [scanStringAt] at ht
  split at ht
  · simp at ht
    simp [ht, Token.plain, Token.isEOSTok, Token.isIndentTok, Token.isDedentTok]
  · split at ht <;>
      · simp at ht
        simp [ht, Token.plain, Token.isEOSTok, Token.isIndentTok, Token.isDedentTok]

/-- Every token emitted by `operatorScan` is plain (Operator, Arrow or
Invalid). -/
theorem operatorScan_tokens (s : ScanState) (c : Char) (rst : List Char) :
    ∀ t ∈ (operatorScan s c rst).1, t.plain = true := by
  intro t ht
  simp only [operatorScan] at ht
  repeat' split at ht
  all_goals
    · simp at ht
      simp [ht, Token.plain, Token.isEOSTok, Token.isIndentTok, Token.isDedentTok]

/-- The number scanner yields a Number token at the requested position. -/
theorem scanNumberFrom_isNumber (cs : List Char) (pos : Nat) :
    ∃ len v b, (scanNumberFrom cs pos).1 = Token.number pos len v b := by
  have hdec : ∀ cs2, ∃ len v b,
      (scanDecimalFrom cs2 pos).1 = Token.number pos len v b := by
    intro cs2
    simp only [scanDecimalFrom]
    split <;> exact ⟨_, _, _, rfl⟩
  have hrad : ∀ p r2 b2, ∃ len v b,
      (radixScan p r2 pos b2).1 = Token.number pos len v b := by
    intro p r2 b2
    simp only [radixScan]
    split <;> exact ⟨_, _, _, rfl⟩
  simp only [scanNumberFrom]
  split
  · repeat' split
    all_goals first
      | exact hrad _ _ _
      | exact hdec _
  · exact hdec _

/-- Every token emitted for a CR is plain. -/
theorem handleCRCh_tokens (s : ScanState) (acc : List Token) (rst : List Char) :
    ∀ t ∈ (handleCRCh s acc rst).1, t.plain = true := by
  intro t ht
  simp only [handleCRCh] at ht
  split at ht
  · split at ht <;> exact emitNewLine_tokens _ _ _ _ _ ht
  · exact emitNewLine_tokens _ _ _ _ _ ht

/-- Every token emitted for a backslash is plain. -/
theorem handleBackslashCh_tokens (s : ScanState) (rst : List Char) :
    ∀ t ∈ (handleBackslashCh s rst).1, t.plain = true := by
  intro t ht
  simp only [handleBackslashCh] at ht
  repeat' split at ht
  all_goals simp_all [Token.plain, Token.isEOSTok, Token.isIndentTok, Token.isDedentTok]

/-- Every token emitted for an identifier-start character is plain. -/
theorem handlePrefixOrIdent_tokens (s : ScanState) (c : Char) (rst : List Char) :
    ∀ t ∈ (handlePrefixOrIdent s c rst).1, t.plain = true := by
  intro t ht
  simp only [handlePrefixOrIdent] at ht
  repeat' split at ht
  all_goals first
    | exact scanStringAt_tokens _ _ _ _ _ ht
    | exact identScan_tokens _ _ _ _ ht

/-- The number token emitted by `handleNumberCh` is plain. -/
theorem handleNumberCh_tokens (s : ScanState) :
    ∀ t ∈ (handleNumberCh s).1, t.plain = true := by
  intro t ht
  simp only [handleNumberCh] at ht
  simp at ht
  obtain ⟨len, v, b, hno⟩ := scanNumberFrom_isNumber s.rest s.pos
  rw [ht, hno]
  rfl

/-- Every token emitted for a period is plain. -/
theorem handleDotCh_tokens (s : ScanState) (rst : List Char) :
    ∀ t ∈ (handleDotCh s rst).1, t.plain = true := by
  intro t ht
  simp only [handleDotCh] at ht
  repeat' split at ht
  all_goals first
    | exact handleNumberCh_tokens _ _ ht
    | simp_all [Token.plain, Token.isEOSTok, Token.isIndentTok, Token.isDedentTok]

/-- Every token emitted for a colon is plain. -/
theorem handleColonCh_tokens (s : ScanState) (rst : List Char) :
    ∀ t ∈ (handleColonCh s rst).1, t.plain = true := by
  intro t ht
  simp only [handleColonCh] at ht
  split at ht <;>
    simp_all [Token.plain, Token.isEOSTok, Token.isIndentTok, Token.isDedentTok]

/-- Every token emitted by the ordinary dispatch is plain: never
EndOfStream, Indent or Dedent. -/
theorem handleMain_plain (s : ScanState) (acc : List Token) :
    ∀ t ∈ (handleMain s acc).1, t.plain = true := by
  intro t ht
  simp only [handleMain] at ht
  split at ht
  · exact absurd ht (List.not_mem_nil t)
  · split at ht
    all_goals first
      | exact handleCRCh_tokens _ _ _ _ ht
      | exact emitNewLine_tokens _ _ _ _ _ ht
      | exact handleBackslashCh_tokens _ _ _ ht
      | exact scanStringAt_tokens _ _ _ _ _ ht
      | exact handlePrefixOrIdent_tokens _ _ _ _ ht
      | exact handleNumberCh_tokens _ _ ht
      | exact handleDotCh_tokens _ _ _ ht
      | exact handleColonCh_tokens _ _ _ ht
      | exact operatorScan_tokens _ _ _ _ ht
      | simp_all [handleCommentCh, openBracketTok, closeBracketTok, Token.plain,
          Token.isEOSTok, Token.isIndentTok, Token.isDedentTok]

/-- Plain tokens are neither EndOfStream nor Indent nor Dedent. -/
theorem plain_spec (t : Token) (h : t.plain = true) :
    t.isEOSTok = false ∧ t.isIndentTok = false ∧ t.isDedentTok = false := by
  simp [Token.plain] at h
  exact ⟨h.1.1, h.1.2, h.2⟩

/-- Indent and Dedent tokens are not EndOfStream. -/
theorem indent_or_dedent_not_eos (t : Token)
    (h : t.isIndentTok = true ∨ t.isDedentTok = true) : t.isEOSTok = false := by
  cases t <;>
    simp_all [Token.isIndentTok, Token.isDedentTok, Token.isEOSTok]

/-- No scanner step emits an EndOfStream token. -/
theorem step_not_eos (s : ScanState) (acc ts : List Token) (s1 : ScanState)
    (h : step s acc = some (ts, s1)) : ∀ t ∈ ts, t.isEOSTok = false := by
  intro t ht
  simp only [step] at h
  split at h
  · exact absurd h (by simp)
  · split at h
    · have h2 : handleLineStart s = (ts, s1) := Option.some.inj h
      have h3 : t ∈ (handleLineStart s).1 := by rw [h2]; exact ht
      exact indent_or_dedent_not_eos t (handleLineStart_tokens s t h3)
    · have h2 : handleMain s acc = (ts, s1) := Option.some.inj h
      have h3 : t ∈ (handleMain s acc).1 := by rw [h2]; exact ht
      exact (plain_spec t (handleMain_plain s acc t h3)).1

/-- The scan loop preserves EndOfStream-freeness of the accumulator. -/
theorem scanLoop_not_eos (fuel : Nat) :
    ∀ (s : ScanState) (acc : List Token),
      (∀ t ∈ acc, t.isEOSTok = false) →
      ∀ t ∈ (scanLoop fuel s acc).1, t.isEOSTok = false := by
  induction fuel with
  | zero => intro s acc hacc t ht; exact hacc t ht
  | succ n ih =>
    intro s acc hacc t ht
    rw [scanLoop] at ht
    rcases hstep : step s acc with _ | ⟨ts, s1⟩
    · rw [hstep] at ht
      exact hacc t ht
    · rw [hstep] at ht
      refine ih s1 (ts.reverse ++ acc) ?_ t ht
      intro u hu
      rcases List.mem_append.mp hu with h | h
      · exact step_not_eos s acc ts s1 hstep u (List.mem_reverse.mp h)
      · exact hacc u h

/-- `(indentAmount, matchesIndent)` of a Dedent token. -/
def dedentPairOf (t : Token) : Nat × Bool :=
  match t with
  | .dedent _ _ a m => (a, m)
  | _ => (0, false)

/-- The payloads of the Dedent run emitted for a pop sequence: each
intermediate Dedent carries the level it dedents to (with
`matchesIndent = true`), and the final Dedent carries the new indent
amount, matching iff that amount equals the last level dedented to. -/
theorem dedentTokens_pairs (points : List Nat) (amt pos : Nat) :
    (dedentTokens points amt pos).map dedentPairOf =
      if points.isEmpty then []
      else points.dropLast.map (fun p => (p, true)) ++
        [(amt, points.getLastD 0 == amt)] := by
  induction points with
  | nil => simp [dedentTokens]
  | cons p rest ih =>
    cases rest with
    | nil => simp [dedentTokens, dedentPairOf]
    | cons q rest2 =>
      have he : dedentTokens (p :: q :: rest2) amt pos =
          .dedent pos 0 p true :: dedentTokens (q :: rest2) amt pos := rfl
      rw [he]
      simp only [List.map_cons, ih]
      simp [dedentPairOf, List.getLastD_cons]

end Pyright

/-- C2 (refuted — code bug): code point 0x1369 (ETHIOPIC DIGIT ONE) is one
of the `Other_ID_Continue` points of `_specialIdentifierChars`, and the
fully built map classifies it as an identifier-continue character; yet
when `isIdentifierChar 0x1369` is the very first non-ASCII classifier
query (state as of module load, `_identifierCharMapInitialized = false`),
it returns `false`, because `isIdentifierChar` reads the sparse map
without performing the lazy initialization and the module-load
fast-table-only build stopped each range table at its first entry ≥ 256. -/
theorem c2_isIdentifierChar_skips_lazy_init :
    (0x1369, 0x1369) ∈ Pyright.specialIdentifierChars ∧
    Pyright.mapCat Pyright.fullIdentTables 0x1369 =
      some Pyright.CharCategory.identifierChar ∧
    (Pyright.isIdentifierChar 0x1369 ⟨true⟩).1 = true ∧
    (Pyright.isIdentifierStartChar 0x1369 ⟨false⟩).2.mapInitialized = true ∧
    Pyright.mapCat Pyright.initialIdentTables 0x1369 = none ∧
    (Pyright.isIdentifierChar 0x1369 ⟨false⟩).1 = false := by
  refine ⟨by decide, by decide, by decide, by decide, by decide, by decide⟩


/-- C9: `isWhiteSpace` accepts exactly SPACE, TAB and FORM FEED (so NBSP
0xa0 and the other Unicode spaces are rejected), and `isLineBreak`
accepts exactly LF and CR. -/
theorem c9_whitespace_linebreak_exact (ch : Nat) :
    (Pyright.isWhiteSpace ch = true ↔ (ch = 0x20 ∨ ch = 0x9 ∨ ch = 0xc)) ∧
    (Pyright.isLineBreak ch = true ↔ (ch = 0xa ∨ ch = 0xd)) ∧
    Pyright.isWhiteSpace 0xa0 = false ∧ Pyright.isWhiteSpace 0x2000 = false ∧
    Pyright.isWhiteSpace 0x1680 = false ∧ Pyright.isWhiteSpace 0xb = false := by
  refine ⟨?_, ?_, by decide, by decide, by decide, by decide⟩ <;>
    · simp [Pyright.isWhiteSpace, Pyright.isLineBreak]
      omega

/-- C10: `isNumber` and `isDecimal` are extensionally equal, and both hold
exactly on the ASCII digits and the underscore. -/
theorem c10_isNumber_eq_isDecimal (ch : Nat) :
    Pyright.isNumber ch = Pyright.isDecimal ch ∧
    (Pyright.isNumber ch = true ↔ ((0x30 ≤ ch ∧ ch ≤ 0x39) ∨ ch = 0x5f)) := by
  refine ⟨rfl, ?_⟩
  simp [Pyright.isNumber]

/-- C1 (refuted — corrected): for the IndentDedent input the indent stack
reaches [0, 2, 8] (the two Indent tokens push 2 and 8), and the final
line of indent 1 pops the entries 8 and 2; but the two Dedent tokens
carry indentAmounts 2 and 1 — the level dedented to and the new indent
amount — not the popped entries [8, 2]. -/
theorem c1_dedent_amount_counterexample :
    Pyright.indentAmounts (Pyright.tokenize Pyright.c1Input) = [2, 8] ∧
    Pyright.dedentInfo (Pyright.tokenize Pyright.c1Input) = [(2, true), (1, false)] ∧
    (Pyright.dedentInfo (Pyright.tokenize Pyright.c1Input)).map Prod.fst = [2, 1] ∧
    ([2, 1] : List Nat) ≠ [8, 2] :=
  ⟨by decide, by decide, by decide, by decide⟩

/-- C1 (amended): when a line dedents, every intermediate Dedent token
carries the stack entry it dedents to with `matchesIndent = true`, and
the final Dedent carries the new line's indent amount with
`matchesIndent` true iff that amount equals the last level dedented to;
in particular the IndentDedent input (stack [0, 2, 8], final indent 1)
yields Dedent(2, true) then Dedent(1, false). -/
theorem c1_dedent_amount_amended :
    (∀ points amt pos,
      (Pyright.dedentTokens points amt pos).map Pyright.dedentPairOf =
        if points.isEmpty then []
        else points.dropLast.map (fun p => (p, true)) ++
          [(amt, points.getLastD 0 == amt)]) ∧
    Pyright.indentAmounts (Pyright.tokenize Pyright.c1Input) = [2, 8] ∧
    Pyright.dedentInfo (Pyright.tokenize Pyright.c1Input) = [(2, true), (1, false)] :=
  ⟨Pyright.dedentTokens_pairs, by decide, by decide⟩

/-- C3 (refuted — corrected): for the IndentDedentParen input the token
immediately before EndOfStream is a Dedent, not a NewLine (the NewLine
sits before the trailing Dedent). -/
theorem c3_stream_end_counterexample :
    Pyright.tokTypes (Pyright.tokenize Pyright.c4Input) =
      [.identifier, .openParenthesis, .identifier, .closeParenthesis, .newLine,
       .indent, .identifier, .newLine, .dedent, .endOfStream] ∧
    Pyright.TokType.dedent ≠ Pyright.TokType.newLine :=
  ⟨by decide, by decide⟩

/-- C3 (amended): every token stream ends with exactly one EndOfStream
token, preceded by a NewLine (real or Implied) with only trailing Dedent
tokens possibly in between; the empty input yields exactly
[NewLine(Implied, length 0), EndOfStream] with one line span. -/
theorem c3_stream_end_amended (text : List Char) :
    ((Pyright.tokenize text).tokens.countP (fun t => t.isEOSTok) = 1) ∧
    (∃ mid nl ds p, (Pyright.tokenize text).tokens =
        mid ++ nl :: (ds ++ [Pyright.Token.endOfStream p]) ∧
      nl.isNewLineTok = true ∧ ∀ d ∈ ds, d.isDedentTok = true) ∧
    (text = [] →
      (Pyright.tokenize text).tokens =
        [Pyright.Token.newLine 0 0 .implied, Pyright.Token.endOfStream 0] ∧
      (Pyright.tokenize text).lines = [(0, 0)]) := by
  have hacc : ∀ t ∈ (Pyright.scanLoop (2 * text.length + 4)
      (Pyright.initScanState text) []).1, t.isEOSTok = false :=
    Pyright.scanLoop_not_eos _ _ _ (by simp)
  refine ⟨?_, ?_, fun h => by subst h; exact ⟨by decide, by decide⟩⟩
  · simp only [Pyright.tokenize]
    set L := (Pyright.scanLoop (2 * text.length + 4)
      (Pyright.initScanState text) []).1 with hL
    set sf := (Pyright.scanLoop (2 * text.length + 4)
      (Pyright.initScanState text) []).2 with hsf
    have hall : ∀ t ∈ (if Pyright.headIsNewLine L then L
        else Pyright.Token.newLine sf.pos 0 .implied :: L), t.isEOSTok = false := by
      split
      · exact hacc
      · intro t ht
        rcases List.mem_cons.mp ht with h | h
        · subst h; rfl
        · exact hacc t h
    rw [List.countP_append, List.countP_append]
    have h1 : (List.countP (fun t => t.isEOSTok)
        ((if Pyright.headIsNewLine L then L
          else Pyright.Token.newLine sf.pos 0 .implied :: L).reverse)) = 0 := by
      refine List.countP_eq_zero.mpr ?_
      intro t ht
      simp [hall t (List.mem_reverse.mp ht)]
    have h2 : (List.countP (fun t => t.isEOSTok)
        (Pyright.dedentTokens (Pyright.dedentLevels sf.indents 0).1 0 sf.pos)) = 0 := by
      refine List.countP_eq_zero.mpr ?_
      intro t ht
      simp [Pyright.indent_or_dedent_not_eos t
        (Or.inr (Pyright.dedentTokens_isDedent _ _ _ t ht))]
    rw [h1, h2]
    rfl
  · simp only [Pyright.tokenize]
    set L := (Pyright.scanLoop (2 * text.length + 4)
      (Pyright.initScanState text) []).1 with hL
    set sf := (Pyright.scanLoop (2 * text.length + 4)
      (Pyright.initScanState text) []).2 with hsf
    have hded : ∀ d ∈ Pyright.dedentTokens (Pyright.dedentLevels sf.indents 0).1 0 sf.pos,
        d.isDedentTok = true :=
      fun d hd => Pyright.dedentTokens_isDedent _ _ _ d hd
    cases hcase : Pyright.headIsNewLine L with
    | false =>
      refine ⟨L.reverse, Pyright.Token.newLine sf.pos 0 .implied,
        Pyright.dedentTokens (Pyright.dedentLevels sf.indents 0).1 0 sf.pos,
        sf.pos, ?_, rfl, hded⟩
      simp [hcase, List.append_assoc]
    | true =>
      have hex : ∃ t0 L2, L = t0 :: L2 ∧ t0.isNewLineTok = true := by
        cases hL2 : L with
        | nil => rw [hL2] at hcase; simp [Pyright.headIsNewLine] at hcase
        | cons a l =>
          rw [hL2] at hcase
          exact ⟨a, l, rfl, by simpa [Pyright.headIsNewLine] using hcase⟩
      obtain ⟨t0, L2, hL2, ht0⟩ := hex
      refine ⟨L2.reverse, t0,
        Pyright.dedentTokens (Pyright.dedentLevels sf.indents 0).1 0 sf.pos,
        sf.pos, ?_, ht0, hded⟩
      rw [hL2] at hcase ⊢
      simp [hcase, List.reverse_cons, List.append_assoc]

/-- C3 (witness for the amended statement): the empty input evaluates to
exactly the claimed two-token stream with one line span. -/
theorem c3_stream_end_amended_witness :
    (Pyright.tokenize []).tokens =
      [Pyright.Token.newLine 0 0 .implied, Pyright.Token.endOfStream 0] ∧
    (Pyright.tokenize []).lines = [(0, 0)] :=
  (c3_stream_end_amended []).2.2 rfl

/-- C4 (confirmed): a scanner step taken at bracket depth greater than
zero emits no Indent and no Dedent token; and on the IndentDedentParen
input the indentation changes inside the parentheses produce no
Indent/Dedent, while after the CloseParenthesis/NewLine an Indent
precedes `foo` and a trailing Dedent precedes EndOfStream. -/
theorem c4_no_indent_inside_brackets :
    (∀ (s : Pyright.ScanState) (acc ts : List Pyright.Token)
        (s1 : Pyright.ScanState),
      Pyright.step s acc = some (ts, s1) → 0 < s.depth →
      ∀ t ∈ ts, t.isIndentTok = false ∧ t.isDedentTok = false) ∧
    Pyright.tokTypes (Pyright.tokenize Pyright.c4Input) =
      [.identifier, .openParenthesis, .identifier, .closeParenthesis, .newLine,
       .indent, .identifier, .newLine, .dedent, .endOfStream] := by
  constructor
  · intro s acc ts s1 h hd t ht
    simp only [Pyright.step] at h
    split at h
    · exact absurd h (by simp)
    · split at h
      · have h2 : Pyright.handleLineStart s = (ts, s1) := Option.some.inj h
        have h3 : ts = [] := by
          rw [← Pyright.handleLineStart_bracketed s hd, h2]
        rw [h3] at ht
        exact absurd ht (List.not_mem_nil t)
      · have h2 : Pyright.handleMain s acc = (ts, s1) := Option.some.inj h
        have h3 : t ∈ (Pyright.handleMain s acc).1 := by rw [h2]; exact ht
        have h4 := Pyright.plain_spec t (Pyright.handleMain_plain s acc t h3)
        exact ⟨h4.2.1, h4.2.2⟩
  · decide

/-- C4 (witness): a concrete bracketed step — scanning `(` at depth 1 —
emits only the CloseParenthesis-free token list `[OpenParenthesis 0]`,
which contains no Indent or Dedent. -/
theorem c4_no_indent_inside_brackets_witness :
    ∀ t ∈ [Pyright.Token.openParenthesis 0],
      t.isIndentTok = false ∧ t.isDedentTok = false :=
  fun t ht =>
    c4_no_indent_inside_brackets.1 ⟨['('], 0, [], 1, false⟩ []
      [Pyright.Token.openParenthesis 0] ⟨[], 1, [], 2, false⟩
      (by decide) (by decide) t ht

/-- C5 (confirmed): indent amounts are computed by tab expansion — each
space adds one column, and a tab advances the running amount to
`8 * (amt / 8) + 8`, which is the least multiple of 8 strictly greater
than the current amount; on the IndentDedent input the two Indent tokens
carry amounts 2 and then 8 (the line of two spaces and a tab). -/
theorem c5_indent_tab_expansion :
    (∀ (n : Nat) (amt : Nat),
      (Pyright.countIndent (List.replicate n ' ') amt).2.1 = amt + n) ∧
    (∀ amt rest, (Pyright.countIndent (Pyright.tbC :: rest) amt).2.1 =
      (Pyright.countIndent rest (8 * (amt / 8) + 8)).2.1) ∧
    (∀ amt, amt < 8 * (amt / 8) + 8 ∧ (8 * (amt / 8) + 8) % 8 = 0 ∧
      ∀ m, amt < 8 * m → 8 * (amt / 8) + 8 ≤ 8 * m) ∧
    Pyright.indentAmounts (Pyright.tokenize Pyright.c1Input) = [2, 8] := by
  have hspace : ∀ (rest : List Char) (amt : Nat),
      (Pyright.countIndent (' ' :: rest) amt).2.1 =
        (Pyright.countIndent rest (amt + 1)).2.1 := fun _ _ => rfl
  have htab : ∀ (rest : List Char) (amt : Nat),
      (Pyright.countIndent (Pyright.tbC :: rest) amt).2.1 =
        (Pyright.countIndent rest (amt + (8 - amt % 8))).2.1 := fun _ _ => rfl
  refine ⟨?_, ?_, ?_, by decide⟩
  · intro n
    induction n with
    | zero => intro amt; rfl
    | succ k ih =>
      intro amt
      rw [List.replicate_succ, hspace, ih]
      omega
  · intro amt rest
    rw [htab]
    have : amt + (8 - amt % 8) = 8 * (amt / 8) + 8 := by omega
    rw [this]
  · intro amt
    refine ⟨by omega, by omega, fun m hm => by omega⟩

/-- C5 (witness): at column 3 the tab rule yields 8, which is at or below
every multiple of 8 exceeding 3. -/
theorem c5_indent_tab_expansion_witness : 8 * (3 / 8) + 8 ≤ 8 * 1 :=
  (c5_indent_tab_expansion.2.2.1 3).2.2 1 (by decide)

/-- C6 (confirmed): a radix prefix 0x/0X, 0o/0O or 0b/0B with no
following digit of its base scans as a length-1 Number with value 0 and
`isInteger`, leaving the prefix letter to be rescanned; and the two
pinned inputs produce exactly the pinned Numbers and Identifiers. -/
theorem c6_radix_requires_digit :
    (∀ (p : Char) (rest : List Char) (pos : Nat), (p = 'x' ∨ p = 'X') →
      (∀ c, rest.head? = some c → Pyright.isHex c.toNat = false) →
      Pyright.scanNumberFrom ('0' :: p :: rest) pos =
        (.number pos 1 (.intVal 0) true, 1)) ∧
    (∀ (p : Char) (rest : List Char) (pos : Nat), (p = 'o' ∨ p = 'O') →
      (∀ c, rest.head? = some c → Pyright.isOctal c.toNat = false) →
      Pyright.scanNumberFrom ('0' :: p :: rest) pos =
        (.number pos 1 (.intVal 0) true, 1)) ∧
    (∀ (p : Char) (rest : List Char) (pos : Nat), (p = 'b' ∨ p = 'B') →
      (∀ c, rest.head? = some c → Pyright.isBinary c.toNat = false) →
      Pyright.scanNumberFrom ('0' :: p :: rest) pos =
        (.number pos 1 (.intVal 0) true, 1)) ∧
    Pyright.numberInfo (Pyright.tokenize Pyright.c6aInput) =
      [(1, .intVal 1, true), (3, .intVal 2, true), (7, .intVal 65195, true),
       (1, .intVal 0, true)] ∧
    Pyright.identValues (Pyright.tokenize Pyright.c6aInput) = [['x']] ∧
    Pyright.tokTypes (Pyright.tokenize Pyright.c6bInput) =
      [.number, .identifier, .newLine, .endOfStream] ∧
    Pyright.numberInfo (Pyright.tokenize Pyright.c6bInput) =
      [(1, .intVal 0, true)] ∧
    Pyright.identValues (Pyright.tokenize Pyright.c6bInput) = [['b']] := by
  have hrad : ∀ (pred : Nat → Bool) (rest : List Char) (pos base : Nat),
      (∀ c, rest.head? = some c → pred c.toNat = false) →
      Pyright.radixScan pred rest pos base =
        (.number pos 1 (.intVal 0) true, 1) := by
    intro pred rest pos base hhead
    unfold Pyright.radixScan
    have hrun : rest.takeWhile (fun c => pred c.toNat) = [] := by
      cases rest with
      | nil => rfl
      | cons c r2 => simp [List.takeWhile_cons, hhead c rfl]
    simp [hrun]
  refine ⟨?_, ?_, ?_, by decide, by decide, by decide, by decide, by decide⟩
  · intro p rest pos hp hhead
    rcases hp with rfl | rfl
    · have h1 : Pyright.scanNumberFrom ('0' :: 'x' :: rest) pos =
          Pyright.radixScan Pyright.isHex rest pos 16 := rfl
      rw [h1]
      exact hrad _ _ _ _ hhead
    · have h1 : Pyright.scanNumberFrom ('0' :: 'X' :: rest) pos =
          Pyright.radixScan Pyright.isHex rest pos 16 := rfl
      rw [h1]
      exact hrad _ _ _ _ hhead
  · intro p rest pos hp hhead
    rcases hp with rfl | rfl
    · have h1 : Pyright.scanNumberFrom ('0' :: 'o' :: rest) pos =
          Pyright.radixScan Pyright.isOctal rest pos 8 := rfl
      rw [h1]
      exact hrad _ _ _ _ hhead
    · have h1 : Pyright.scanNumberFrom ('0' :: 'O' :: rest) pos =
          Pyright.radixScan Pyright.isOctal rest pos 8 := rfl
      rw [h1]
      exact hrad _ _ _ _ hhead
  · intro p rest pos hp hhead
    rcases hp with rfl | rfl
    · have h1 : Pyright.scanNumberFrom ('0' :: 'b' :: rest) pos =
          Pyright.radixScan Pyright.isBinary rest pos 2 := rfl
      rw [h1]
      exact hrad _ _ _ _ hhead
    · have h1 : Pyright.scanNumberFrom ('0' :: 'B' :: rest) pos =
          Pyright.radixScan Pyright.isBinary rest pos 2 := rfl
      rw [h1]
      exact hrad _ _ _ _ hhead

/-- C6 (witness): `0xz` scans the solitary `0` as a length-1 Number with
value 0. -/
theorem c6_radix_requires_digit_witness :
    Pyright.scanNumberFrom ['0', 'x', 'z'] 0 =
      (.number 0 1 (.intVal 0) true, 1) :=
  c6_radix_requires_digit.1 'x' ['z'] 0 (Or.inl rfl) (fun c hc => by
    have h2 : c = 'z' := by simpa using hc.symm
    subst h2
    decide)

/-- C7 (confirmed, §4.5/§8): for every string token carrying the Raw
flag, `getUnescapedString` returns the escaped value verbatim and no
unescape errors; the two raw tokens of the pinned input — whose bodies
hold escape-like sequences and backslash-newline pairs — round-trip with
empty error lists. -/
theorem c7_raw_string_roundtrip :
    (∀ (flags : Pyright.StringFlags) (body : List Char), flags.raw = true →
      (Pyright.getUnescapedStringOf flags body).value = body ∧
      (Pyright.getUnescapedStringOf flags body).unescapeErrors = []) ∧
    (Pyright.stringToks (Pyright.tokenize Pyright.c7Input)).map
        (fun t => ((Pyright.flagsOf t).raw,
          (Pyright.getUnescapedString t).value == Pyright.escapedValueOf t,
          (Pyright.getUnescapedString t).unescapeErrors)) =
      [(true, true, []), (true, true, [])] := by
  constructor
  · intro flags body hraw
    simp [Pyright.getUnescapedStringOf, hraw]
  · decide

/-- C7 (witness): a raw body holding a backslash escape pair unescapes to
itself with no errors. -/
theorem c7_raw_string_roundtrip_witness :
    (Pyright.getUnescapedStringOf { raw := true } [Pyright.bsC, 'n']).value =
      [Pyright.bsC, 'n'] ∧
    (Pyright.getUnescapedStringOf { raw := true }
      [Pyright.bsC, 'n']).unescapeErrors = [] :=
  c7_raw_string_roundtrip.1 { raw := true } [Pyright.bsC, 'n'] rfl

namespace Pyright

/-- Errors already accumulated by the splitter walk survive into its
result. -/
theorem fsWalk_err_mem (body : List Char) :
    ∀ (fuel : Nat) (cs : List Char) (i : Nat) (mode : FsMode)
      (segs : List FormatStringSegment) (errs : List UnescapeError)
      (e : UnescapeError), e ∈ errs → e ∈ (fsWalk body fuel cs i mode segs errs).2 := by
  intro fuel
  induction fuel with
  | zero =>
    intro cs i mode segs errs e he
    cases mode <;> simp [fsWalk, fsWalkEnd, he]
  | succ n ih =>
    intro cs i mode segs errs e he
    cases cs with
    | nil => cases mode <;> simp [fsWalk, fsWalkEnd, he]
    | cons c rest =>
      cases mode with
      | lit segStart =>
        simp only [fsWalk]
        repeat' split
        all_goals first
          | exact ih _ _ _ _ _ e he
          | exact ih _ _ _ _ _ e (List.mem_cons_of_mem _ he)
          | simp [he]
      | expr es depth inStr =>
        simp only [fsWalk]
        repeat' split
        all_goals first
          | exact ih _ _ _ _ _ e he
          | exact ih _ _ _ _ _ e (List.mem_cons_of_mem _ he)
          | simp [he]

/-- The splitter walks through brace-free text in literal mode one
character per unit of fuel, changing nothing but the position. -/
theorem fsWalk_lit_append (body : List Char) :
    ∀ (pre : List Char), (∀ c ∈ pre, c.toNat ≠ 123 ∧ c.toNat ≠ 125) →
    ∀ (fuel : Nat) (cs : List Char) (i segStart : Nat)
      (segs : List FormatStringSegment) (errs : List UnescapeError),
      fsWalk body (fuel + pre.length) (pre ++ cs) i (.lit segStart) segs errs =
        fsWalk body fuel cs (i + pre.length) (.lit segStart) segs errs := by
  intro pre
  induction pre with
  | nil => intro _ fuel cs i segStart segs errs; simp
  | cons c pre2 ih =>
    intro hpre fuel cs i segStart segs errs
    have hc := hpre c (by simp)
    have hrest : ∀ c2 ∈ pre2, c2.toNat ≠ 123 ∧ c2.toNat ≠ 125 :=
      fun c2 h2 => hpre c2 (by simp [h2])
    have hb1 : (c.toNat == 123) = false := by simp [hc.1]
    have hb2 : (c.toNat == 125) = false := by simp [hc.2]
    have hL : fuel + (c :: pre2).length = (fuel + pre2.length) + 1 := by
      simp [List.length_cons]
      omega
    rw [hL]
    show fsWalk body ((fuel + pre2.length) + 1) (c :: (pre2 ++ cs)) i
        (.lit segStart) segs errs = _
    simp only [fsWalk, hb1, hb2, Bool.false_eq_true, if_false]
    rw [ih hrest fuel cs (i + 1) segStart segs errs]
    have hI : i + 1 + pre2.length = i + (c :: pre2).length := by
      simp [List.length_cons]
      omega
    rw [hI]

/-- One splitter step on a single close brace followed by a character
that is not another close brace: the SingleCloseBraceWithinFormatLiteral
error is recorded and the literal resumes after the brace. -/
theorem fsWalk_lit_close_step (body : List Char) (fuel : Nat) (d : Char)
    (rest2 : List Char) (i segStart : Nat) (segs : List FormatStringSegment)
    (errs : List UnescapeError) (hd : (d.toNat == 125) = false) :
    fsWalk body (fuel + 1) (cbC :: d :: rest2) i (.lit segStart) segs errs =
      fsWalk body fuel (d :: rest2) (i + 1) (.lit (i + 1))
        (flushLit body segStart i segs)
        (⟨i, 1, .singleCloseBraceWithinFormatLiteral⟩ :: errs) := by
  have hcb1 : (cbC.toNat == 123) = false := by decide
  have hcb2 : (cbC.toNat == 125) = true := by decide
  conv_lhs => rw [fsWalk]
  simp only [hcb1, hcb2, hd, Bool.false_eq_true, if_false, if_true]

/-- One splitter step on a single close brace at the very end of the
body: the error is recorded and the walk finishes. -/
theorem fsWalk_lit_close_end (body : List Char) (fuel : Nat)
    (i segStart : Nat) (segs : List FormatStringSegment)
    (errs : List UnescapeError) :
    fsWalk body (fuel + 1) [cbC] i (.lit segStart) segs errs =
      ((flushLit body segStart i segs).reverse,
        (⟨i, 1, .singleCloseBraceWithinFormatLiteral⟩ :: errs).reverse) := by
  have hcb1 : (cbC.toNat == 123) = false := by decide
  have hcb2 : (cbC.toNat == 125) = true := by decide
  conv_lhs => rw [fsWalk]
  simp only [hcb1, hcb2, Bool.false_eq_true, if_false, if_true]

end Pyright

/-- C8 (confirmed): tokenizing `f'hello}'` yields a single String token
with flags exactly {SingleQuote, Format}, whose unescaping yields exactly
one (literal) format-string segment and exactly one UnescapeError of
kind SingleCloseBraceWithinFormatLiteral at offset 5 with length 1; and
in general a single `}` after brace-free literal text and not followed by
a second `}` produces that error at the brace's offset. -/
theorem c8_fstring_single_close_brace :
    (Pyright.tokTypes (Pyright.tokenize Pyright.c8Input) =
      [.stringT, .newLine, .endOfStream]) ∧
    ((Pyright.stringToks (Pyright.tokenize Pyright.c8Input)).map Pyright.flagsOf =
      [{ singleQuote := true, format := true }]) ∧
    ((Pyright.stringToks (Pyright.tokenize Pyright.c8Input)).map
        (fun t => ((Pyright.getUnescapedString t).formatStringSegments.length,
          (Pyright.getUnescapedString t).unescapeErrors)) =
      [(1, [⟨5, 1, .singleCloseBraceWithinFormatLiteral⟩])]) ∧
    (∀ (pre post : List Char),
      (∀ c ∈ pre, c.toNat ≠ 123 ∧ c.toNat ≠ 125) →
      (∀ d, post.head? = some d → d.toNat ≠ 125) →
      (⟨pre.length, 1, .singleCloseBraceWithinFormatLiteral⟩ :
          Pyright.UnescapeError) ∈
        (Pyright.splitFormatString (pre ++ Pyright.cbC :: post)).2) := by
  refine ⟨by decide, by decide, by decide, ?_⟩
  intro pre post hpre hpost
  unfold Pyright.splitFormatString
  have hlen : (pre ++ Pyright.cbC :: post).length = (post.length + 1) + pre.length := by
    rw [List.length_append, List.length_cons]
    omega
  rw [hlen,
    Pyright.fsWalk_lit_append _ pre hpre (post.length + 1) (Pyright.cbC :: post) 0 0 [] [],
    Nat.zero_add]
  cases post with
  | nil =>
    rw [Pyright.fsWalk_lit_close_end]
    simp
  | cons d rest2 =>
    have hd : (d.toNat == 125) = false := by
      cases h125 : d.toNat == 125 with
      | false => rfl
      | true => exact absurd (eq_of_beq h125) (hpost d rfl)
    rw [Pyright.fsWalk_lit_close_step _ _ d rest2 _ 0 [] [] hd]
    exact Pyright.fsWalk_err_mem _ _ _ _ _ _ _ _ (List.mem_cons_self _ _)

/-- C8 (witness for the general part): `h}` — brace-free `h` then a
single close brace — yields the SingleCloseBraceWithinFormatLiteral
error at offset 1. -/
theorem c8_fstring_single_close_brace_witness :
    (⟨1, 1, .singleCloseBraceWithinFormatLiteral⟩ : Pyright.UnescapeError) ∈
      (Pyright.splitFormatString ['h', Pyright.cbC]).2 := by
  have h := c8_fstring_single_close_brace.2.2.2 ['h'] []
    (fun c hc => by
      have h2 : c = 'h' := by simpa using hc
      subst h2
      exact ⟨by decide, by decide⟩)
    (fun d hd => by simp at hd)
  simpa using h
